/-
Verification of the core logic of the DocSend deck-extractor application.

The development shallowly embeds the relevant parts of the Python source:

* `topdf_app/ui/screens/home.py`   — DocSend URL validation (regex prefix match);
* `topdf_app/core/state.py`        — the application state machine;
* `topdf_app/core/names.py`        — the random-name pool;
* `topdf_app/core/history.py`      — the conversion-history store;
* `topdf_app/core/worker.py`       — the background conversion worker
  (event trace, cancellation, credential exchange, unique output paths).

Machine integers do not occur in the modelled fragment; Python ints are
modelled as `Nat`.  Python strings are modelled as Lean `String`.
-/

import Mathlib

set_option maxRecDepth 20000

namespace DocsendApp

/-! ## State machine (`topdf_app/core/state.py`) -/

/-- Application states, mirroring `class State(Enum)` in `state.py`. -/
inductive AppState
  | home
  | progress
  | auth_email
  | auth_passcode
  | complete
  | error
deriving DecidableEq, Repr

/-- `VALID_TRANSITIONS` from `state.py` lines 26–33, as a total function
(the Python code reads the dict with `.get(from_state, [])`). -/
def VALID_TRANSITIONS : AppState → List AppState
  | .home => [.progress]
  | .progress => [.auth_email, .complete, .error]
  | .auth_email => [.progress, .auth_passcode]
  | .auth_passcode => [.progress]
  | .complete => [.home]
  | .error => [.progress, .home]

/-- `StateManager.can_transition` (`state.py` lines 73–83). -/
def can_transition (from_state to_state : AppState) : Bool :=
  to_state ∈ VALID_TRANSITIONS from_state

/-- `StateManager.set_state` (`state.py` lines 55–71), as a pure function of
the current state; returns (return value, new current state, list of
`state_changed` emissions). -/
def set_state (current new_state : AppState) (force : Bool) :
    Bool × AppState × List AppState :=
  if !force && !(can_transition current new_state) then
    (false, current, [])
  else
    (true, new_state, [new_state])

/-! ## URL validation (`topdf_app/ui/screens/home.py`)

`DOCSEND_URL_PATTERN = re.compile(r"https?://(?:www\.)?docsend\.com/view/[a-zA-Z0-9]+", re.IGNORECASE)`
and `is_valid_docsend_url(url) = bool(DOCSEND_URL_PATTERN.match(url.strip()))`.

Python's `re.match` anchors only at the start of the string: it succeeds as
soon as a *prefix* of the (stripped) input matches the pattern.  Matching is
case-insensitive over Unicode: a lower-case pattern letter also matches its
upper-case counterpart and, for `i` and `s`, CPython's extra equivalences
(`ı` and `İ` for `i`, long `ſ` for `s`); the class `[a-zA-Z0-9]`
additionally matches `ı`, `İ`, `ſ` and the Kelvin sign.  The match sets and
the whitespace set below were obtained by enumerating every Unicode code
point against CPython 3.11 for each character of this pattern.  Both
optional groups (`s?`, `(?:www\.)?`) are deterministic here because no
character matching the group's first letter (`s`/`S`/`ſ`, resp. `w`/`W`)
also matches the character that follows the group in the pattern (`:`,
resp. `d`/`D`), so greedy matching without backtracking is faithful to the
regex. -/

/-- ASCII alphanumeric test, the literal content of the class
`[a-zA-Z0-9]`. -/
def isAlnumAscii (c : Char) : Bool :=
  c.isAlpha || c.isDigit

/-- The characters removed by Python's `str.strip()`: every code point `c`
with `chr(c).strip() == ""` (exhaustive enumeration over Unicode). -/
def pySpaceChars : List Char :=
  ['\x09', '\x0a', '\x0b', '\x0c', '\x0d', '\x1c', '\x1d', '\x1e',
   '\x1f', ' ', '\x85', '\xa0', '\u1680', '\u2000', '\u2001', '\u2002',
   '\u2003', '\u2004', '\u2005', '\u2006', '\u2007', '\u2008', '\u2009',
   '\u200a', '\u2028', '\u2029', '\u202f', '\u205f', '\u3000']

/-- Is `c` stripped by Python's `str.strip()`? -/
def isSpaceChar (c : Char) : Bool :=
  c ∈ pySpaceChars

/-- `url.strip()`: drop leading and trailing whitespace characters. -/
def stripChars (cs : List Char) : List Char :=
  ((cs.dropWhile isSpaceChar).reverse.dropWhile isSpaceChar).reverse

/-- The set of input characters matched by the single pattern character `l`
under `re.IGNORECASE`: the character itself for the uncased `:`, `/` and
`.`, the lower/upper pair for a lower-case letter, plus CPython's extra
case equivalences for `i` (`ı`, `İ`) and `s` (`ſ`).  These sets were
verified by exhaustive enumeration for every character occurring in
`DOCSEND_URL_PATTERN`. -/
def reLitClass (l : Char) : List Char :=
  if l = 'i' then ['i', 'I', '\u0130', '\u0131']
  else if l = 's' then ['s', 'S', '\u017f']
  else if l.isLower then [l, l.toUpper]
  else [l]

/-- Does input character `c` match pattern character `l` under
`re.IGNORECASE`? -/
def reLitMatch (l c : Char) : Bool :=
  c ∈ reLitClass l

/-- Membership in the pattern's character class `[a-zA-Z0-9]` under
`re.IGNORECASE`: the ASCII alphanumerics plus `İ`, `ı`, `ſ` and the Kelvin
sign (the extras found by exhaustive enumeration). -/
def tokenMatch (c : Char) : Bool :=
  isAlnumAscii c || c ∈ ['\u0130', '\u0131', '\u017f', '\u212a']

/-- Literal matcher: consume `lit` from the front of `cs`, each pattern
character matched by `reLitMatch`, returning the rest, or `none` if `cs`
does not start with a match of `lit`. -/
def matchLitCI : List Char → List Char → Option (List Char)
  | [], cs => some cs
  | _ :: _, [] => none
  | l :: ls, c :: cs => if reLitMatch l c then matchLitCI ls cs else none

/-- Optional literal: consume `lit` if it is present, otherwise leave the
input unchanged (the groups `s?` and `(?:www\.)?`). -/
def matchOptCI (lit : List Char) (cs : List Char) : List Char :=
  match matchLitCI lit cs with
  | some r => r
  | none => cs

/-- The sub-pattern `docsend\.com/view/[a-zA-Z0-9]` as a prefix matcher (the
`+` after the character class needs only its first, mandatory repetition for
a prefix match to succeed). -/
def viewTailMatch (cs : List Char) : Bool :=
  match matchLitCI "docsend.com/view/".toList cs with
  | none => false
  | some r =>
    match r with
    | [] => false
    | c :: _ => tokenMatch c

/-- The sub-pattern `(?:www\.)?docsend\.com/view/[a-zA-Z0-9]` as a prefix
matcher. -/
def hostTailMatch (cs : List Char) : Bool :=
  viewTailMatch (matchOptCI "www.".toList cs)

/-- The sub-pattern `://(?:www\.)?docsend\.com/view/[a-zA-Z0-9]` as a prefix
matcher. -/
def afterSchemeMatch (cs : List Char) : Bool :=
  match matchLitCI "://".toList cs with
  | none => false
  | some r => hostTailMatch r

/-- `DOCSEND_URL_PATTERN.match cs` as a Boolean: does a prefix of `cs` match
`https?://(?:www\.)?docsend\.com/view/[a-zA-Z0-9]+` (case-insensitive)? -/
def docsendUrlMatch (cs : List Char) : Bool :=
  match matchLitCI "http".toList cs with
  | none => false
  | some r1 => afterSchemeMatch (matchOptCI "s".toList r1)

/-- `is_valid_docsend_url` (`home.py` lines 34–43). -/
def is_valid_docsend_url (url : String) : Bool :=
  docsendUrlMatch (stripChars url.toList)

/-- `p` matches the literal `s` character by character under
`re.IGNORECASE`. -/
def MatchesLit (p : List Char) (s : String) : Prop :=
  List.Forall₂ (fun l c => reLitMatch l c = true) s.toList p

/-- The stripped input starts with `scheme://[www.]docsend.com/view/`
followed by at least one character of the token class (scheme `http` or
`https`), every pattern character matched by its `re.IGNORECASE` match set
— the *prefix* shape actually accepted by the code. -/
def DocsendPrefixShape (cs : List Char) : Prop :=
  ∃ sch sep www host c rest,
    cs = sch ++ sep ++ www ++ host ++ c :: rest ∧
    (MatchesLit sch "http" ∨ MatchesLit sch "https") ∧
    MatchesLit sep "://" ∧
    (www = [] ∨ MatchesLit www "www.") ∧
    MatchesLit host "docsend.com/view/" ∧
    tokenMatch c = true

/-- Modelled from the spec: a *full* match of the document-link pattern
`scheme://[www.]docsend.com/view/<token>` — the whole string, not merely a
prefix, must match, the token being one-or-more alphanumeric characters.
This is the reading of "accepts iff the string matches the pattern" in the
external-interface section of the spec; it is compared against the code's
`is_valid_docsend_url` above. -/
def docsendFullMatch (cs : List Char) : Bool :=
  match matchLitCI "http".toList cs with
  | none => false
  | some r1 =>
    let r2 := matchOptCI "s".toList r1
    match matchLitCI "://".toList r2 with
    | none => false
    | some r3 =>
      let r4 := matchOptCI "www.".toList r3
      match matchLitCI "docsend.com/view/".toList r4 with
      | none => false
      | some r5 => !r5.isEmpty && r5.all isAlnumAscii


/-! ## Name pool (`topdf_app/core/names.py`)

`NameManager` keeps a persisted set `_used_names` of already-issued names and
draws uniformly from the remaining ones.  The draw (`random.choice`) is
modelled by an arbitrary selection function `pick` subject only to picking an
element of the non-empty set it is given. -/

/-- `CARTOON_NAMES` from `names.py` lines 16–186.  The comment above the list
in the source says "1000 cartoon/animated character first names", but the
list actually has 989 entries, some of them repeated. -/
def CARTOON_NAMES : List String := [
  "Mickey", "Minnie", "Donald", "Daisy", "Goofy", "Pluto", "Chip", "Dale",
  "Dumbo", "Bambi", "Thumper", "Flower", "Simba", "Nala", "Mufasa", "Scar",
  "Timon", "Pumbaa", "Rafiki", "Zazu", "Ariel", "Flounder", "Sebastian", "Eric",
  "Ursula", "Belle", "Beast", "Gaston", "Lumiere", "Cogsworth", "Jasmine", "Aladdin",
  "Genie", "Jafar", "Abu", "Rajah", "Pocahontas", "Meeko", "Flit", "Mulan",
  "Mushu", "Shang", "Tarzan", "Jane", "Terk", "Tantor", "Lilo", "Stitch",
  "Nani", "Jumba", "Pleakley", "Moana", "Maui", "Elsa", "Anna", "Olaf",
  "Kristoff", "Sven", "Rapunzel", "Flynn", "Pascal", "Maximus", "Merida", "Elinor",
  "Fergus", "Vanellope", "Ralph", "Felix", "Woody", "Buzz", "Jessie", "Rex",
  "Slinky", "Hamm", "Bullseye", "Lotso", "Forky", "Bonnie", "Andy", "Nemo",
  "Marlin", "Dory", "Gill", "Bloat", "Peach", "Jacques", "Bubbles", "Gurgle",
  "Nigel", "Crush", "Squirt", "Hank", "Destiny", "Bailey", "Sully", "Mike",
  "Boo", "Randall", "Roz", "Celia", "Lightning", "Mater", "Sally", "Doc",
  "Ramone", "Flo", "Luigi", "Guido", "Sheriff", "Fillmore", "Sarge", "Cruz",
  "Jackson", "Remy", "Linguini", "Colette", "Ego", "Emile", "Django", "Carl",
  "Russell", "Dug", "Kevin", "Muntz", "Ellie", "Joy", "Sadness", "Fear",
  "Anger", "Disgust", "Bing", "Riley", "Miguel", "Hector", "Dante", "Imelda",
  "Ernesto", "Coco", "Luca", "Alberto", "Giulia", "Ercole", "Massimo", "Bugs",
  "Daffy", "Porky", "Tweety", "Sylvester", "Foghorn", "Speedy", "Pepe", "Wile",
  "Roadrunner", "Taz", "Marvin", "Elmer", "Yosemite", "Granny", "Lola", "Gossamer",
  "Michigan", "Ralph", "Sam", "Scooby", "Shaggy", "Velma", "Daphne", "Fred",
  "Scrappy", "Yogi", "Booboo", "Cindy", "Ranger", "Flintstones", "Barney", "Betty",
  "Wilma", "Pebbles", "Bamm", "Dino", "Jetsons", "George", "Jane", "Judy",
  "Elroy", "Astro", "Rosie", "Johnny", "Dexter", "Dee", "Mandark", "Blossom",
  "Bubbles", "Buttercup", "Mojo", "Fuzzy", "Courage", "Muriel", "Eustace", "SpongeBob",
  "Patrick", "Squidward", "Sandy", "Krabs", "Plankton", "Karen", "Gary", "Pearl",
  "Larry", "Tommy", "Chuckie", "Angelica", "Phil", "Lil", "Susie", "Dil",
  "Kimi", "Timmy", "Cosmo", "Wanda", "Poof", "Sparky", "Crocker", "Vicky",
  "Chester", "Arnold", "Helga", "Gerald", "Phoebe", "Harold", "Rhonda", "Eugene",
  "Aang", "Katara", "Sokka", "Toph", "Zuko", "Iroh", "Azula", "Appa",
  "Momo", "Korra", "Mako", "Bolin", "Asami", "Tenzin", "Jinora", "Lincoln",
  "Lori", "Leni", "Luna", "Luan", "Lynn", "Lucy", "Lana", "Lola",
  "Lisa", "Lily", "Finn", "Jake", "Marceline", "Bubblegum", "Ice", "BMO",
  "Lumpy", "Flame", "Gunter", "Mordecai", "Rigby", "Benson", "Skips", "Pops",
  "Muscle", "High", "Thomas", "Margaret", "Eileen", "Gumball", "Darwin", "Anais",
  "Nicole", "Richard", "Penny", "Carrie", "Tobias", "Steven", "Garnet", "Amethyst",
  "Pearl", "Peridot", "Lapis", "Jasper", "Connie", "Greg", "Rose", "Spinel",
  "Ed", "Edd", "Eddy", "Rolf", "Kevin", "Nazz", "Jimmy", "Sarah",
  "Jonny", "Plank", "Samurai", "Aku", "Scotsman", "Shrek", "Fiona", "Donkey",
  "Puss", "Dragon", "Farquaad", "Charming", "Arthur", "Rumpel", "Po", "Tigress",
  "Viper", "Crane", "Mantis", "Monkey", "Shifu", "Oogway", "Tai", "Shen",
  "Kai", "Hiccup", "Toothless", "Astrid", "Stormfly", "Snotlout", "Fishlegs", "Ruffnut",
  "Tuffnut", "Stoick", "Valka", "Gobber", "Grimmel", "Alex", "Marty", "Melman",
  "Gloria", "King", "Maurice", "Mort", "Skipper", "Kowalski", "Rico", "Private",
  "Mason", "Phil", "Vitaly", "Gia", "Stefano", "Branch", "Poppy", "Creek",
  "Bridget", "Gristle", "Guy", "Eep", "Grug", "Ugga", "Thunk", "Sandy",
  "Gran", "Belt", "Metro", "Roxanne", "Megamind", "Minion", "Tighten", "Spirit",
  "Rain", "Lucky", "Pikachu", "Ash", "Misty", "Brock", "Gary", "Meowth",
  "Jessie", "James", "Oak", "Joy", "Jenny", "Goku", "Vegeta", "Gohan",
  "Piccolo", "Krillin", "Bulma", "Trunks", "Goten", "Frieza", "Cell", "Buu",
  "Naruto", "Sasuke", "Sakura", "Kakashi", "Hinata", "Shikamaru", "Choji", "Ino",
  "Rock", "Neji", "Gaara", "Itachi", "Jiraiya", "Orochimaru", "Tsunade", "Luffy",
  "Zoro", "Nami", "Usopp", "Sanji", "Chopper", "Robin", "Franky", "Brook",
  "Jinbe", "Totoro", "Mei", "Satsuki", "Catbus", "Chihiro", "Haku", "Yubaba",
  "Zeniba", "Boh", "Kamaji", "Ponyo", "Sosuke", "Howl", "Sophie", "Calcifer",
  "Kiki", "Jiji", "Tombo", "Porco", "Gina", "Ashitaka", "San", "Moro",
  "Eboshi", "Jigo", "Popeye", "Olive", "Bluto", "Wimpy", "Swee", "Felix",
  "Betty", "Bimbo", "Koko", "Casper", "Wendy", "Richie", "Cadbury", "Droopy",
  "Spike", "Tom", "Jerry", "Nibbles", "Butch", "Quacker", "Spike", "Tyke",
  "Woody", "Winnie", "Buzz", "Chilly", "Andy", "Miranda", "Inspector", "Penny",
  "Brain", "Claw", "Pink", "Panther", "Clouseau", "Bluey", "Bingo", "Bandit",
  "Chilli", "Muffin", "Socks", "Stripe", "Trixie", "Chloe", "Judo", "Mackenzie",
  "Rusty", "Jack", "Honey", "Phineas", "Ferb", "Candace", "Perry", "Doofenshmirtz",
  "Vanessa", "Isabella", "Buford", "Baljeet", "Stacy", "Jeremy", "Monogram", "Carl",
  "Norm", "Dipper", "Mabel", "Stan", "Ford", "Soos", "Wendy", "Waddles",
  "Bill", "Pacifica", "Gideon", "Star", "Marco", "Ludo", "Toffee", "Glossaryck",
  "Hekapoo", "Pony", "Janna", "Jackie", "Mario", "Luigi", "Peach", "Toad",
  "Yoshi", "Bowser", "Wario", "Waluigi", "Daisy", "Rosalina", "Toadette", "Birdo",
  "Donkey", "Diddy", "Dixie", "Cranky", "Funky", "Kirby", "Dedede", "Meta",
  "Waddle", "Link", "Zelda", "Ganondorf", "Impa", "Navi", "Epona", "Sonic",
  "Tails", "Knuckles", "Amy", "Shadow", "Rouge", "Eggman", "Cream", "Cheese",
  "Vector", "Espio", "Charmy", "Silver", "Blaze", "Crash", "Coco", "Cortex",
  "Aku", "Uka", "Dingodile", "Tiny", "Spyro", "Sparx", "Hunter", "Elora",
  "Moneybags", "Bianca", "Sgt", "Ratchet", "Clank", "Qwark", "Nefarious", "Rivet",
  "Kit", "Jak", "Daxter", "Keira", "Samos", "Torn", "Ashelin", "Rayman",
  "Globox", "Barbara", "Murfy", "Teensie", "Sackboy", "Toggle", "Oddsock", "Groot",
  "Rocket", "Drax", "Gamora", "Mantis", "Nebula", "Starlord", "Baymax", "Hiro",
  "Wasabi", "Gogo", "Honey", "Fred", "Tadashi", "Callaghan", "Wall", "Eve",
  "Mo", "Auto", "Captain", "McCrea", "Flint", "Sam", "Steve", "Brent",
  "Earl", "Tim", "Chester", "Barb", "Gil", "Manny", "Sid", "Diego",
  "Scrat", "Ellie", "Peaches", "Crash", "Eddie", "Buck", "Shira", "Granny",
  "Brooke", "Julian", "Horton", "Morton", "Vlad", "Katie", "Ted", "Audrey",
  "Grammy", "Lorax", "Once", "Ferdinand", "Lupe", "Bones", "Angus", "Una",
  "Dos", "Cuatro", "Valiente", "Guapo", "Paco", "Gru", "Lucy", "Margo",
  "Edith", "Agnes", "Vector", "Nefario", "Wild", "Scarlet", "Herb", "Balthazar",
  "Dru", "Fritz", "Kevin", "Bob", "Stuart", "Otto", "Paddington", "Brown",
  "Bird", "Curry", "Gruber", "Bucket", "Phoenix", "Knuckles", "Judy", "Nick",
  "Bogo", "Clawhauser", "Bellwether", "Lionheart", "Finnick", "Flash", "Yax", "Gazelle",
  "Archer", "Lana", "Cyril", "Pam", "Cheryl", "Krieger", "Malory", "Ray",
  "Woodhouse", "Barry", "Katya", "Conway", "Brett", "Figgis", "Rick", "Morty",
  "Beth", "Jerry", "Summer", "Birdperson", "Squanchy", "Unity", "Tammy", "Phoenix",
  "Scary", "Terry", "Goldenfold", "Poopybutthole", "Jaguar", "Pickle", "Noob", "Evil",
  "Snuffles", "BoJack", "Diane", "Todd", "Carolyn", "Peanutbutter", "Hollyhock", "Beatrice",
  "Butterscotch", "Sarah", "Herb", "Wanda", "Penny", "Charlotte", "Kelsey", "Rutabaga",
  "Judah", "Pickles", "Paige", "Tuca", "Bertie", "Speckle", "Kara", "Figgy",
  "Dapper", "Hilda", "Twig", "Alfur", "Frida", "David", "Johanna", "Raven",
  "Kaisa", "Erik", "Victoria", "Gerda", "Cedric", "Edmund", "Alvin", "Simon",
  "Theodore", "Brittany", "Jeanette", "Eleanor", "Dave", "Ian", "Zoe", "Toby",
  "Julie", "Miles", "Samantha", "Ashley", "Rocko", "Heffer", "Filburt", "Spunky",
  "Bev", "Virginia", "Ralph", "Paula", "Peter", "Peaches", "Widget", "Wubbzy",
  "Walden", "Daisy", "Daizy", "Huggy", "Earl", "Moxy", "Nox", "Ox",
  "Ug", "Mandy", "Ugly", "Charlie", "Itchy", "Killer", "Carface", "Annabelle",
  "Belladonna", "Flo", "Webster", "Cuddles", "Giggles", "Toothy", "Lumpy", "Petunia",
  "Handy", "Nutty", "Sniffles", "Pop", "Cub", "Flaky", "Mime", "Disco",
  "Russell", "Lifty", "Shifty", "Cro", "Splendid", "Lammy", "Truffles", "Beavis",
  "Butthead", "Daria", "Jane", "Trent", "Quinn", "Helen", "Jake", "Brittany",
  "Kevin", "Mack", "Jodie", "Andrea", "Sandi", "Stacy", "Tiffany", "Upchuck",
  "Tom", "Jesse", "Wind", "Catra", "Adora", "Glimmer", "Bow", "Hordak",
  "Entrapta", "Scorpia", "Mermista", "Perfuma", "Frosta", "Spinnerella", "Netossa", "Swift",
  "Seahawk", "Horde", "Shadow", "Double", "Kyle", "Rogelio", "Lonnie", "Angella",
  "Micah", "Castaspella", "Light", "Hope", "Mara", "Razz", "Madame", "Huntara",
  "Tung", "Flutterina", "Peekablue", "Sweet", "Tallstar", "Jewelstar", "Starla", "Swen",
  "Imp", "Grizzlor", "Leech", "Mantenna", "Modulok", "Squidish", "Multi", "Octavia",
  "Scorpia", "Catra", "Spinerella", "Netossa", "Mermista", "Frosta", "Perfuma", "Glimmer",
  "Bow", "Adora", "Hordak", "Entrapta", "Wrong", "Emily", "Sparkles", "Thundercat",
  "Lion", "Cheetara", "Tygra", "Panthro", "Snarf", "Wilykit", "Wilykat", "Jaga",
  "Bengali", "Pumyra", "Lynxo", "Mumm", "Slithe", "Jackalman", "Monkian", "Vultureman",
  "Rataro", "Grune", "Kaynar", "Addicus", "Ssslithe", "Claudus", "Voltron", "Keith",
  "Lance", "Pidge", "Hunk", "Shiro", "Allura", "Coran", "Lotor", "Zarkon",
  "Haggar", "Sendak", "Acxa", "Ezor", "Zethrid", "Narti", "Romelle", "Kolivan",
  "Ulaz", "Thace", "Regris", "Krolia", "Cosmo", "Veronica", "James", "Nadia",
  "Ryan", "Kinkade", "Leifsdottir", "Griffin", "Iverson", "Sanda", "Slav", "Matt",
  "Commander", "Dayak", "Ladnok", "Branko", "Morvok", "Varkon", "Lahn", "Honerva",
  "Sincline", "Bandor", "Kova", "Cupcake", "Cherry"]

/-- The catalogue as a set: `set(CARTOON_NAMES)` in the source. -/
def catalogue : Finset String := CARTOON_NAMES.toFinset

/-- `NameManager.get_random_name` (`names.py` lines 225–244) as a pure
function of the used-set.  `pick` stands for `random.choice`; the result is
the returned name and the new used-set (persisting to disk is not modelled).
-/
def get_random_name (pick : Finset String → String) (used : Finset String) :
    String × Finset String :=
  let available := catalogue \ used
  if available = ∅ then
    let name := pick catalogue
    (name, {name})
  else
    let name := pick available
    (name, insert name used)

/-- `NameManager.release_name` (`names.py` lines 246–254). -/
def release_name (used : Finset String) (name : String) : Finset String :=
  used.erase name

/-- `n` successive `get_random_name` calls with no intervening release,
returning the list of drawn names. -/
def drawNames (pick : Finset String → String) : Nat → Finset String → List String
  | 0, _ => []
  | n + 1, used =>
    let r := get_random_name pick used
    r.1 :: drawNames pick n r.2

/-- A concrete valid selection function (used to instantiate `pick`): the
least name of the set in lexicographic order, `""` on the empty set. -/
def minPick (s : Finset String) : String :=
  if h : s.Nonempty then s.min' h else ""

/-! ## Conversion history (`topdf_app/core/history.py`) -/

/-- `HistoryEntry` (`history.py` lines 17–25). -/
structure HistoryEntry where
  name : String
  pdf_path : String
  page_count : Nat
  timestamp : String
  has_summary : Bool
deriving DecidableEq, Repr

/-- `HistoryManager.MAX_ENTRIES` (`history.py` line 91). -/
def MAX_ENTRIES : Nat := 10

/-- `HistoryManager.add` (`history.py` lines 149–183) as a pure function of
the in-memory entry list (newest first): entries with the same `pdf_path` are
filtered out, the new entry is inserted at the front, and the list is trimmed
to `MAX_ENTRIES` (persisting and the `history_changed` signal are not
modelled). -/
def historyAdd (history : List HistoryEntry) (entry : HistoryEntry) :
    List HistoryEntry :=
  (entry :: history.filter (fun e => e.pdf_path != entry.pdf_path)).take MAX_ENTRIES

/-! ## Unique output path (`topdf_app/core/worker.py` lines 186–197)

The worker saves to `output_dir / f"{suggested_name}.pdf"`; while that path
exists it retries `output_dir / f"{base_name} ({counter}).pdf"` with
`counter = 1, 2, …`.  The filesystem is modelled by a Boolean predicate
`fileExists` on path strings (paths are rendered without the directory
prefix, which is constant throughout the loop). -/

/-- The successive candidate file names: counter 0 is the bare
`base ++ ".pdf"`, counter `k+1` is `base ++ " (k+1).pdf"`. -/
def pdfCandidate (base : String) : Nat → String
  | 0 => base ++ ".pdf"
  | k + 1 => base ++ " (" ++ toString (k + 1) ++ ").pdf"

/-- The `while output_path.exists()` loop of `worker.py` lines 191–195,
with explicit fuel (the loop has no bound in the source; on a filesystem
with finitely many files some candidate is always free). -/
def resolveOutputPath (fileExists : String → Bool) (base : String) :
    Nat → Nat → String → Option String
  | 0, _, _ => none
  | fuel + 1, counter, path =>
    if fileExists path then
      resolveOutputPath fileExists base fuel (counter + 1)
        (base ++ " (" ++ toString counter ++ ").pdf")
    else
      some path

/-- The unique-path computation of `worker.py` lines 188–195: start from
`base ++ ".pdf"` with counter 1. -/
def uniqueOutputPath (fileExists : String → Bool) (base : String)
    (fuel : Nat) : Option String :=
  resolveOutputPath fileExists base fuel 1 (base ++ ".pdf")

/-! ## Conversion worker (`topdf_app/core/worker.py`)

`ConversionWorker.run` executes on a background thread; `cancel`,
`cancel_auth` and `provide_credentials` are called from the UI thread.

Control-flag state.  `__init__` (lines 54–64) sets `_cancelled = False`,
`_auth_provided = False` and a cleared `threading.Event`. -/

/-- The worker's mutable control state: stored credentials, the `_cancelled`
flag, the `_auth_provided` flag and whether `_auth_event` is set. -/
structure WorkerCtl where
  email : Option String
  passcode : Option String
  cancelled : Bool
  auth_provided : Bool
  auth_event : Bool
deriving DecidableEq, Repr

/-- Control state after `__init__` (`worker.py` lines 54–64). -/
def initCtl (email passcode : Option String) : WorkerCtl :=
  ⟨email, passcode, false, false, false⟩

/-- `ConversionWorker.provide_credentials` (`worker.py` lines 256–268): it
unconditionally stores the credentials, marks them provided and sets the
auth event — there is no check that the worker is waiting. -/
def provide_credentials (st : WorkerCtl) (email : String)
    (passcode : Option String) : WorkerCtl :=
  { st with
      email := some email
      passcode := passcode
      auth_provided := true
      auth_event := true }

/-- `ConversionWorker.cancel` (`worker.py` lines 270–273). -/
def cancel (st : WorkerCtl) : WorkerCtl :=
  { st with cancelled := true, auth_event := true }

/-- `ConversionWorker.cancel_auth` (`worker.py` lines 275–279). -/
def cancel_auth (st : WorkerCtl) : WorkerCtl :=
  { st with cancelled := true, auth_provided := false, auth_event := true }

/-- Exceptions that can reach the worker from the scraping / building layer.
The exception classes themselves live in the `topdf` package, which is
imported by `worker.py` but not part of this repository; the worker only
distinguishes them by `isinstance` checks. -/
inductive Exc
  | emailRequired
  | passcodeRequired
  | invalidCredentials
  | other (msg : String)
deriving DecidableEq, Repr

/-- Outcome of one `scraper.scrape(...)` call: a page count on success, or a
raised exception. -/
inductive ScrapeOutcome
  | ok (pages : Nat)
  | raise (e : Exc)
deriving DecidableEq, Repr

/-- The worker's outgoing Qt signals (`worker.py` lines 30–33).  The second
argument of the `error` signal (the traceback text) is not modelled. -/
inductive Event
  | progress (percent : Nat) (message : String)
  | auth_required (kind : String)
  | complete (pdf_path : String) (page_count : Nat) (company_name : String)
  | error (message : String)
deriving DecidableEq, Repr

/-- Is the event a terminal (`complete` or `error`) event? -/
def Event.isTerminal : Event → Bool
  | .complete _ _ _ => true
  | .error _ => true
  | _ => false

/-- `ConversionWorker._format_error` (`worker.py` lines 211–254) on the
modelled exceptions.  `EmailRequiredError` and `PasscodeRequiredError`
subclass `TopdfError`, whose branch returns the exception's own `message`
attribute; those messages live in the absent `topdf` package and their exact
text is immaterial here.  For a generic exception only the final truncation
branch is modelled (the keyword checks for network errors do not affect any
claim). -/
def format_error : Exc → String
  | .invalidCredentials => "Invalid email or passcode"
  | .emailRequired => "Email required"
  | .passcodeRequired => "Passcode required"
  | .other msg => if msg.length > 200 then msg.take 200 else msg

/-- Environment of one `run()` execution: the worker reads `_cancelled` at a
sequence of program points, numbered in execution order; `cancelAt k` is the
value seen at the k-th read (the flag is set asynchronously by
`cancel`/`cancel_auth`).  The scrape outcomes, the post-wait value of
`_auth_provided`, the chosen name, the resolved output path and the
build/save failures are likewise supplied by the environment. -/
structure RunEnv where
  cancelAt : Nat → Bool
  first : ScrapeOutcome
  retry : ScrapeOutcome
  authProvided : Bool
  suggestedName : String
  outputPath : String
  buildErr : Option Exc
  saveErr : Option Exc

/-- Progress events emitted by `on_scrape_progress` (`worker.py` lines
84–89) during a successful scrape of `n` pages, the `k`-th `_cancelled` read
being the callback's own check for page 1.  The percentage
`int((current / total) * 60)` is modelled by exact floor division
`current * 60 / total`; the two can differ by floating-point rounding on
individual values, but both are weakly increasing in `current` and bounded
by 60, which is all any claim uses.  A scrape attempt that raises a gate
exception produces no callbacks (the gate is classified before capture
begins; the scraper itself is in the absent `topdf` package). -/
def captureEvents (c : Nat → Bool) (k n : Nat) : List Event :=
  (List.range n).filterMap fun i =>
    if c (k + i) then none
    else some (.progress ((i + 1) * 60 / n)
      ("Capturing page " ++ toString (i + 1) ++ " of " ++ toString n))

/-- The generic exception handler (`worker.py` lines 206–209): its
`if not self._cancelled` guard is the `k`-th `_cancelled` read. -/
def handlerEvents (env : RunEnv) (k : Nat) (e : Exc) : List Event :=
  if env.cancelAt k then [] else [.error (format_error e)]

/-- The tail of `run()` after a successful scrape (`worker.py` lines
155–204): naming, PDF build, save, completion, with the `_cancelled`
checks at lines 155, 172 and 179 as reads `k`, `k+1`, `k+2`. -/
def finishEvents (env : RunEnv) (k n : Nat) : List Event :=
  if env.cancelAt k then []
  else
    .progress 62 "Generating name..." ::
    (if env.cancelAt (k + 1) then []
     else
       .progress 70 "Building PDF..." ::
       (match env.buildErr with
        | some e => handlerEvents env (k + 2) e
        | none =>
          if env.cancelAt (k + 2) then []
          else
            .progress 90 "Saving PDF..." ::
            (match env.saveErr with
             | some e => handlerEvents env (k + 3) e
             | none =>
               [.progress 100 "Complete!",
                .complete env.outputPath n env.suggestedName])))

/-- The gate branch of `run()` (`worker.py` lines 103–153): the
`if self._cancelled` check on entering the handler is read 0, the
`_cancelled` disjunct of the post-wait check (line 115 resp. 141) is read 1,
and the retry scrape's reads start at 2.  A retry that raises any exception
— including a still-present passcode gate — escapes to the generic handler,
because the sibling `except` clauses guard only the first scrape call. -/
def gateEvents (env : RunEnv) (kind : String) : List Event :=
  if env.cancelAt 0 then []
  else
    .progress 10 "Authentication required..." ::
    .auth_required kind ::
    (if env.cancelAt 1 || !env.authProvided then []
     else
       .progress 15 "Authenticating..." ::
       (match env.retry with
        | .ok n => captureEvents env.cancelAt 2 n ++ finishEvents env (2 + n) n
        | .raise e => handlerEvents env 2 e))

/-- The full event trace of one `ConversionWorker.run()` execution
(`worker.py` lines 66–209). -/
def runEvents (env : RunEnv) : List Event :=
  .progress 0 "Initializing..." ::
  .progress 5 "Loading document..." ::
  (match env.first with
   | .ok n => captureEvents env.cancelAt 0 n ++ finishEvents env n n
   | .raise .emailRequired => gateEvents env "email"
   | .raise .passcodeRequired => gateEvents env "passcode"
   | .raise e => handlerEvents env 0 e)

/-- Percentages carried by the progress events of a trace, in order. -/
def percents (evts : List Event) : List Nat :=
  evts.filterMap fun e =>
    match e with
    | .progress p _ => some p
    | _ => none

/-- Number of terminal (`complete`/`error`) events in a trace. -/
def terminalCount (evts : List Event) : Nat :=
  (evts.filter (·.isTerminal)).length

/-- Every event of the trace except possibly the last one is non-terminal:
once a terminal event is emitted, nothing follows it. -/
def terminalLast : List Event → Bool
  | [] => true
  | [_] => true
  | e :: rest => !e.isTerminal && terminalLast rest

/-- A cancel-flag stream is monotone (`_cancelled` is only ever set, never
cleared, during a run) and the auth wait can only return with
`_auth_provided = False` if `cancel_auth`/`cancel` set `_cancelled`
(`_auth_event` is set by no other path). -/
def EnvWellFormed (env : RunEnv) : Prop :=
  (∀ i j, i ≤ j → env.cancelAt i = true → env.cancelAt j = true) ∧
  (env.authProvided = false → env.cancelAt 1 = true)

/-- A concrete run environment (used to instantiate the worker theorems):
scrape outcomes, the post-wait `_auth_provided` value and the cancel-flag
stream vary, the remaining fields are fixed sample data with no build/save
failure. -/
def mkEnv (cancelAt : Nat → Bool) (first retry : ScrapeOutcome)
    (authProvided : Bool) : RunEnv :=
  { cancelAt := cancelAt
    first := first
    retry := retry
    authProvided := authProvided
    suggestedName := "Mickey"
    outputPath := "Mickey.pdf"
    buildErr := none
    saveErr := none }


/-! # Theorems -/

/-! ## C10 — `set_state` succeeds exactly on listed transitions -/

/-- C10.  For every current state `s` and target `t`,
`set_state(t, force=False)` returns `True`, moves to `t` and emits one
`state_changed(t)` exactly when `t ∈ VALID_TRANSITIONS[s]`; otherwise it
returns `False`, leaves the state unchanged and emits nothing. -/
theorem set_state_spec : ∀ s t : AppState,
    set_state s t false =
      if t ∈ VALID_TRANSITIONS s then (true, t, [t])
      else (false, s, ([] : List AppState)) := by
  intro s t
  cases s <;> cases t <;> decide

/-! ## C7 — unique output path -/

/-- The loop invariant of `resolveOutputPath`: starting at candidate `j` with
counter `j+1`, if candidates `j, …, k-1` exist and candidate `k` does not,
the loop returns candidate `k` (given fuel beyond `k - j`). -/
theorem resolveOutputPath_eq (fileExists : String → Bool) (base : String)
    (k : Nat)
    (hmin : ∀ i, i < k → fileExists (pdfCandidate base i) = true)
    (hfree : fileExists (pdfCandidate base k) = false) :
    ∀ fuel j, j ≤ k → k - j < fuel →
      resolveOutputPath fileExists base fuel (j + 1) (pdfCandidate base j) =
        some (pdfCandidate base k) := by
  intro fuel
  induction fuel with
  | zero => intro j _ h; omega
  | succ fuel ih =>
    intro j hj hfuel
    by_cases hjk : j = k
    · subst hjk
      simp [resolveOutputPath, hfree]
    · have hjlt : j < k := lt_of_le_of_ne hj hjk
      have hex : fileExists (pdfCandidate base j) = true := hmin j hjlt
      simp only [resolveOutputPath, hex, if_true]
      have hcand : base ++ " (" ++ toString (j + 1) ++ ").pdf" =
          pdfCandidate base (j + 1) := rfl
      rw [hcand]
      exact ih (j + 1) hjlt (by omega)

/-- C7.  If a file with the chosen base name exists, the worker tries
`base.pdf`, `base (1).pdf`, `base (2).pdf`, … in order: whenever `k` is the
first counter whose candidate does not exist (all earlier candidates exist),
the save-path loop, run with enough fuel, returns exactly that candidate —
a path that does not exist, so no existing file is ever overwritten. -/
theorem uniqueOutputPath_first_free (fileExists : String → Bool)
    (base : String) (k fuel : Nat)
    (hmin : ∀ i, i < k → fileExists (pdfCandidate base i) = true)
    (hfree : fileExists (pdfCandidate base k) = false)
    (hfuel : k < fuel) :
    uniqueOutputPath fileExists base fuel = some (pdfCandidate base k) ∧
    fileExists (pdfCandidate base k) = false := by
  refine ⟨?_, hfree⟩
  have h := resolveOutputPath_eq fileExists base k hmin hfree fuel 0
    (Nat.zero_le k) (by omega)
  simpa [uniqueOutputPath, pdfCandidate] using h

/-- C7 witness.  With `Foo.pdf` and `Foo (1).pdf` already on disk, saving
base name `Foo` produces `Foo (2).pdf`. -/
theorem uniqueOutputPath_first_free_witness :
    uniqueOutputPath
        (fun p => (["Foo.pdf", "Foo (1).pdf"] : List String).contains p)
        "Foo" 5 = some (pdfCandidate "Foo" 2) ∧
    (fun p => (["Foo.pdf", "Foo (1).pdf"] : List String).contains p)
        (pdfCandidate "Foo" 2) = false :=
  uniqueOutputPath_first_free
    (fun p => (["Foo.pdf", "Foo (1).pdf"] : List String).contains p)
    "Foo" 2 5
    (by
      intro i hi
      have h : i = 0 ∨ i = 1 := by omega
      rcases h with rfl | rfl <;> decide)
    (by decide) (by decide)

/-! ## C8 — `provide_credentials` outside the credential wait -/

/-- C8 counterexample.  In the worker's initial state (no conversion paused,
not awaiting credentials), a `provide_credentials` call is *not* ignored: it
changes the control state. -/
theorem provide_credentials_changes_idle_state :
    provide_credentials (initCtl none none) "a@b.com" none ≠
      initCtl none none := by
  decide

/-- C8 amended.  `provide_credentials` is unconditional, whatever state the
worker is in: it stores the credentials, marks them provided and sets the
auth event (so a later credential wait in the same run returns immediately);
only the `cancelled` flag is untouched. -/
theorem provide_credentials_unconditional (st : WorkerCtl) (email : String)
    (passcode : Option String) :
    (provide_credentials st email passcode).email = some email ∧
    (provide_credentials st email passcode).passcode = passcode ∧
    (provide_credentials st email passcode).auth_provided = true ∧
    (provide_credentials st email passcode).auth_event = true ∧
    (provide_credentials st email passcode).cancelled = st.cancelled :=
  ⟨rfl, rfl, rfl, rfl, rfl⟩

/-! ## C9 — history invariant after `add` -/

/-- C9.  Provided the stored history has pairwise-distinct paths (as every
history produced by the manager's own operations does), after `add`:
the history has at most `MAX_ENTRIES = 10` entries; paths are still
pairwise distinct (any existing entry with the added path was removed
before insertion); the new entry is first; the surviving old entries are
exactly the first `MAX_ENTRIES - 1` non-colliding old entries in their
previous newest-first order; below the cap no old entry is evicted at all;
and over the cap the history is full and precisely the entries beyond
position `MAX_ENTRIES - 1` — the oldest ones — are gone. -/
theorem historyAdd_spec (h : List HistoryEntry) (entry : HistoryEntry)
    (hnd : (h.map HistoryEntry.pdf_path).Nodup) :
    (historyAdd h entry).length ≤ MAX_ENTRIES ∧
    ((historyAdd h entry).map HistoryEntry.pdf_path).Nodup ∧
    (historyAdd h entry).head? = some entry ∧
    (historyAdd h entry).drop 1 =
      (h.filter (fun e => e.pdf_path != entry.pdf_path)).take
        (MAX_ENTRIES - 1) ∧
    ((h.filter (fun e => e.pdf_path != entry.pdf_path)).length ≤
        MAX_ENTRIES - 1 →
      (historyAdd h entry).drop 1 =
        h.filter (fun e => e.pdf_path != entry.pdf_path)) ∧
    (MAX_ENTRIES - 1 <
        (h.filter (fun e => e.pdf_path != entry.pdf_path)).length →
      (historyAdd h entry).length = MAX_ENTRIES ∧
      ∀ e' ∈ (h.filter (fun e => e.pdf_path != entry.pdf_path)).drop
          (MAX_ENTRIES - 1), e' ∉ historyAdd h entry) := by
  have htake : historyAdd h entry =
      entry :: (h.filter (fun e => e.pdf_path != entry.pdf_path)).take
        (MAX_ENTRIES - 1) := by
    simp [historyAdd, MAX_ENTRIES]
  have hfnd : ((h.filter (fun e => e.pdf_path != entry.pdf_path)).map
      HistoryEntry.pdf_path).Nodup :=
    hnd.sublist ((List.filter_sublist h).map _)
  refine ⟨?_, ?_, ?_, ?_, ?_, ?_⟩
  · exact List.length_take_le _ _
  · rw [htake, List.map_cons, List.nodup_cons]
    constructor
    · intro hmem
      rcases List.mem_map.mp hmem with ⟨x, hx, hpath⟩
      have hxf : x ∈ h.filter (fun e => e.pdf_path != entry.pdf_path) :=
        List.mem_of_mem_take hx
      have hne := (List.mem_filter.mp hxf).2
      simp only [bne_iff_ne, ne_eq, decide_eq_true_eq] at hne
      exact hne hpath
    · exact hfnd.sublist ((List.take_sublist _ _).map _)
  · rw [htake]
    rfl
  · rw [htake]
    simp
  · intro hlen
    rw [htake]
    simp only [List.drop_succ_cons, List.drop_zero]
    exact List.take_of_length_le hlen
  · intro hlen
    constructor
    · rw [htake]
      simp only [List.length_cons, List.length_take, MAX_ENTRIES] at hlen ⊢
      omega
    · intro e' he' hmem
      have he'f : e' ∈ h.filter (fun e => e.pdf_path != entry.pdf_path) :=
        List.mem_of_mem_drop he'
      rw [htake] at hmem
      rcases List.mem_cons.mp hmem with rfl | hmem'
      · have hne := (List.mem_filter.mp he'f).2
        simp at hne
      · have hfnodup :
            (h.filter (fun e => e.pdf_path != entry.pdf_path)).Nodup :=
          List.Nodup.of_map _ hfnd
        have hsplit := List.take_append_drop (MAX_ENTRIES - 1)
          (h.filter (fun e => e.pdf_path != entry.pdf_path))
        rw [← hsplit] at hfnodup
        rcases List.nodup_append.mp hfnodup with ⟨-, -, hdisj⟩
        exact hdisj hmem' he'

/-- C9 witness.  Adding an entry whose path collides with the stored one
replaces it: the old duplicate is gone, the new entry is first, and all the
retention conjuncts hold at this instance. -/
theorem historyAdd_spec_witness :
    ((([⟨"Old", "a.pdf", 3, "t0", false⟩] : List HistoryEntry).map
        HistoryEntry.pdf_path).Nodup) ∧
    ((historyAdd [⟨"Old", "a.pdf", 3, "t0", false⟩]
        ⟨"New", "a.pdf", 5, "t1", false⟩).length ≤ MAX_ENTRIES ∧
      ((historyAdd [⟨"Old", "a.pdf", 3, "t0", false⟩]
          ⟨"New", "a.pdf", 5, "t1", false⟩).map HistoryEntry.pdf_path).Nodup ∧
      (historyAdd [⟨"Old", "a.pdf", 3, "t0", false⟩]
          ⟨"New", "a.pdf", 5, "t1", false⟩).head? =
        some ⟨"New", "a.pdf", 5, "t1", false⟩ ∧
      (historyAdd [⟨"Old", "a.pdf", 3, "t0", false⟩]
          ⟨"New", "a.pdf", 5, "t1", false⟩).drop 1 =
        (([⟨"Old", "a.pdf", 3, "t0", false⟩] : List HistoryEntry).filter
          (fun e => e.pdf_path != "a.pdf")).take (MAX_ENTRIES - 1) ∧
      ((([⟨"Old", "a.pdf", 3, "t0", false⟩] : List HistoryEntry).filter
            (fun e => e.pdf_path != "a.pdf")).length ≤ MAX_ENTRIES - 1 →
        (historyAdd [⟨"Old", "a.pdf", 3, "t0", false⟩]
            ⟨"New", "a.pdf", 5, "t1", false⟩).drop 1 =
          ([⟨"Old", "a.pdf", 3, "t0", false⟩] : List HistoryEntry).filter
            (fun e => e.pdf_path != "a.pdf")) ∧
      (MAX_ENTRIES - 1 <
          (([⟨"Old", "a.pdf", 3, "t0", false⟩] : List HistoryEntry).filter
            (fun e => e.pdf_path != "a.pdf")).length →
        (historyAdd [⟨"Old", "a.pdf", 3, "t0", false⟩]
            ⟨"New", "a.pdf", 5, "t1", false⟩).length = MAX_ENTRIES ∧
        ∀ e' ∈ (([⟨"Old", "a.pdf", 3, "t0", false⟩] : List HistoryEntry).filter
            (fun e => e.pdf_path != "a.pdf")).drop (MAX_ENTRIES - 1),
          e' ∉ historyAdd [⟨"Old", "a.pdf", 3, "t0", false⟩]
            ⟨"New", "a.pdf", 5, "t1", false⟩)) :=
  ⟨by decide,
   historyAdd_spec [⟨"Old", "a.pdf", 3, "t0", false⟩]
     ⟨"New", "a.pdf", 5, "t1", false⟩ (by decide)⟩


/-! ## C6 — name pool: unique until exhaustion, then reset -/

/-- C6 counterexample.  The catalogue does not hold 1000 names: the source
list has 989 entries (with duplicates, so the catalogue set is smaller
still).  Hence the used-set covers the catalogue — and the reset occurs —
strictly before 1000 names are in it. -/
theorem catalogue_fewer_than_1000 :
    CARTOON_NAMES.length = 989 ∧ catalogue.card < 1000 := by
  refine ⟨by decide, ?_⟩
  have h : catalogue.card ≤ CARTOON_NAMES.length := CARTOON_NAMES.toFinset_card_le
  have h989 : CARTOON_NAMES.length = 989 := by decide
  omega

/-- `minPick` really selects an element of any non-empty set. -/
theorem minPick_mem : ∀ s : Finset String, s.Nonempty → minPick s ∈ s := by
  intro s hs
  unfold minPick
  rw [dif_pos hs]
  exact s.min'_mem hs

/-- While unused names remain, each draw returns a name outside the used-set
and successive draws are pairwise distinct. -/
theorem drawNames_nodup (pick : Finset String → String)
    (hpick : ∀ s : Finset String, s.Nonempty → pick s ∈ s) :
    ∀ n used, n ≤ (catalogue \ used).card →
      (∀ x ∈ drawNames pick n used, x ∉ used) ∧
      (drawNames pick n used).Nodup := by
  intro n
  induction n with
  | zero => intro used _; simp [drawNames]
  | succ n ih =>
    intro used hn
    have hav : (catalogue \ used).Nonempty := Finset.card_pos.mp (by omega)
    have hne : ¬(catalogue \ used = ∅) := Finset.nonempty_iff_ne_empty.mp hav
    have hmem : pick (catalogue \ used) ∈ catalogue \ used := hpick _ hav
    have hstep : get_random_name pick used =
        (pick (catalogue \ used), insert (pick (catalogue \ used)) used) := by
      simp [get_random_name, hne]
    have hcard : n ≤ (catalogue \ insert (pick (catalogue \ used)) used).card := by
      rw [Finset.sdiff_insert, Finset.card_erase_of_mem hmem]
      omega
    obtain ⟨hnotin, hnd⟩ := ih (insert (pick (catalogue \ used)) used) hcard
    have hpick_notin : pick (catalogue \ used) ∉ used := (Finset.mem_sdiff.mp hmem).2
    constructor
    · intro x hx
      simp only [drawNames, hstep] at hx
      rcases List.mem_cons.mp hx with rfl | hx'
      · exact hpick_notin
      · intro hxused
        exact hnotin x hx' (Finset.mem_insert_of_mem hxused)
    · simp only [drawNames, hstep]
      refine List.nodup_cons.mpr ⟨?_, hnd⟩
      intro hmem'
      exact hnotin _ hmem' (Finset.mem_insert_self _ _)

/-- C6 amended.  With no intervening release, any number of draws that does
not exceed the number of catalogue names still outside the used-set returns
pairwise-distinct names; and whenever the used-set covers the catalogue, the
next draw resets: it succeeds with a catalogue name that was already in the
used-set (so an earlier name may repeat), the new used-set holding exactly
that name. -/
theorem get_random_name_unique_until_exhaustion
    (pick : Finset String → String)
    (hpick : ∀ s : Finset String, s.Nonempty → pick s ∈ s)
    (used : Finset String) (n : Nat)
    (hn : n ≤ (catalogue \ used).card) :
    (drawNames pick n used).Nodup ∧
    (∀ u : Finset String, catalogue \ u = ∅ →
      (get_random_name pick u).1 ∈ catalogue ∧
      (get_random_name pick u).1 ∈ u ∧
      (get_random_name pick u).2 = {(get_random_name pick u).1}) := by
  refine ⟨(drawNames_nodup pick hpick n used hn).2, ?_⟩
  intro u hu
  have hm : "Mickey" ∈ CARTOON_NAMES := by decide
  have hcat : catalogue.Nonempty := ⟨"Mickey", List.mem_toFinset.mpr hm⟩
  have hstep : get_random_name pick u = (pick catalogue, {pick catalogue}) := by
    simp [get_random_name, hu]
  have hpc : pick catalogue ∈ catalogue := hpick _ hcat
  have hsub : catalogue ⊆ u := Finset.sdiff_eq_empty_iff_subset.mp hu
  rw [hstep]
  exact ⟨hpc, hsub hpc, rfl⟩

/-- C6 witness.  The concrete selector `minPick` satisfies the pick
hypothesis, one draw from the empty used-set is within the remaining-name
bound, and the theorem's conclusions hold there. -/
theorem get_random_name_unique_until_exhaustion_witness :
    (∀ s : Finset String, s.Nonempty → minPick s ∈ s) ∧
    1 ≤ (catalogue \ (∅ : Finset String)).card ∧
    ((drawNames minPick 1 ∅).Nodup ∧
      (∀ u : Finset String, catalogue \ u = ∅ →
        (get_random_name minPick u).1 ∈ catalogue ∧
        (get_random_name minPick u).1 ∈ u ∧
        (get_random_name minPick u).2 = {(get_random_name minPick u).1})) :=
  have hb : 1 ≤ (catalogue \ (∅ : Finset String)).card := by
    rw [Finset.sdiff_empty]
    exact Finset.card_pos.mpr ⟨"Mickey", List.mem_toFinset.mpr (by decide)⟩
  ⟨minPick_mem, hb,
   get_random_name_unique_until_exhaustion minPick minPick_mem ∅ 1 hb⟩


/-! ## C1 — URL validation -/

/-- `matchLitCI lit` succeeds with remainder `r` exactly when the input
splits as a prefix matching `lit` character by character followed by `r`. -/
theorem matchLitCI_eq_some (lit : List Char) :
    ∀ (cs r : List Char), matchLitCI lit cs = some r ↔
      ∃ p, cs = p ++ r ∧
        List.Forall₂ (fun l c => reLitMatch l c = true) lit p := by
  induction lit with
  | nil =>
    intro cs r
    constructor
    · intro h
      obtain rfl : cs = r := by simpa [matchLitCI] using h
      exact ⟨[], rfl, List.Forall₂.nil⟩
    · rintro ⟨p, rfl, hp⟩
      obtain rfl : p = [] := List.forall₂_nil_left_iff.mp hp
      simp [matchLitCI]
  | cons l ls ih =>
    intro cs r
    cases cs with
    | nil =>
      constructor
      · intro h
        simp [matchLitCI] at h
      · rintro ⟨p, hp, hmap⟩
        rcases List.forall₂_cons_left_iff.mp hmap with ⟨b, p', hb, hp', rfl⟩
        simp at hp
    | cons c cs' =>
      by_cases hc : reLitMatch l c = true
      · rw [show matchLitCI (l :: ls) (c :: cs') = matchLitCI ls cs' by
          simp [matchLitCI, hc]]
        constructor
        · intro h
          obtain ⟨p', rfl, hp'⟩ := (ih cs' r).mp h
          exact ⟨c :: p', rfl, List.Forall₂.cons hc hp'⟩
        · rintro ⟨p, hp, hmap⟩
          rcases List.forall₂_cons_left_iff.mp hmap with ⟨b, p', hb, hp', rfl⟩
          obtain ⟨rfl, hcs⟩ : c = b ∧ cs' = p' ++ r := by simpa using hp
          exact (ih cs' r).mpr ⟨p', hcs, hp'⟩
      · rw [show matchLitCI (l :: ls) (c :: cs') = none by
          simp [matchLitCI, hc]]
        constructor
        · intro h
          simp at h
        · rintro ⟨p, hp, hmap⟩
          rcases List.forall₂_cons_left_iff.mp hmap with ⟨b, p', hb, hp', rfl⟩
          obtain ⟨rfl, -⟩ : c = b ∧ cs' = p' ++ r := by simpa using hp
          exact absurd hb hc

/-- Succeeding case of `matchLitCI`, in application form. -/
theorem matchLitCI_of_matches {lit p : List Char} (r : List Char)
    (h : List.Forall₂ (fun l c => reLitMatch l c = true) lit p) :
    matchLitCI lit (p ++ r) = some r :=
  (matchLitCI_eq_some lit (p ++ r) r).mpr ⟨p, rfl, h⟩

/-- `matchLitCI` fails when the first input character does not match the
first pattern character. -/
theorem matchLitCI_head_ne {l c : Char} (ls cs : List Char)
    (h : ¬reLitMatch l c = true) :
    matchLitCI (l :: ls) (c :: cs) = none := by
  simp [matchLitCI, h]

/-- Reduction of `matchOptCI` when the literal is present. -/
theorem matchOptCI_of_some {lit cs r : List Char}
    (h : matchLitCI lit cs = some r) : matchOptCI lit cs = r := by
  unfold matchOptCI
  rw [h]

/-- Reduction of `matchOptCI` when the literal is absent. -/
theorem matchOptCI_of_none {lit cs : List Char}
    (h : matchLitCI lit cs = none) : matchOptCI lit cs = cs := by
  unfold matchOptCI
  rw [h]

/-- The first character of a list matching a literal whose first character
is `a` lies in the match set of `a`. -/
theorem matchesLit_head {p : List Char} {s : String} (hs : MatchesLit p s)
    {a : Char} {tl : List Char} (hsl : s.toList = a :: tl) :
    ∃ b p', p = b :: p' ∧ reLitMatch a b = true := by
  rw [MatchesLit, hsl] at hs
  rcases List.forall₂_cons_left_iff.mp hs with ⟨b, p', hb, -, rfl⟩
  exact ⟨b, p', rfl, hb⟩

/-- No character matching `:` matches `s`: when the scheme is `http`, the
optional `s?` can never consume the separator. -/
theorem not_s_of_colon {b : Char} (h : reLitMatch ':' b = true) :
    reLitMatch 's' b = false := by
  have hcls : reLitClass ':' = [':'] := by decide
  have hb : b = ':' := by simpa [reLitMatch, hcls] using h
  subst hb
  decide

/-- No character matching `d` matches `w`: when `www.` is absent, the
optional group can never consume the host. -/
theorem not_w_of_d {b : Char} (h : reLitMatch 'd' b = true) :
    reLitMatch 'w' b = false := by
  have hcls : reLitClass 'd' = ['d', 'D'] := by decide
  have hb : b = 'd' ∨ b = 'D' := by simpa [reLitMatch, hcls] using h
  rcases hb with rfl | rfl <;> decide

/-- `viewTailMatch` accepts exactly the inputs that start with a match of
`docsend.com/view/` followed by a token-class character. -/
theorem viewTailMatch_iff (cs : List Char) :
    viewTailMatch cs = true ↔
      ∃ host c rest, cs = host ++ c :: rest ∧
        MatchesLit host "docsend.com/view/" ∧ tokenMatch c = true := by
  constructor
  · intro h
    unfold viewTailMatch at h
    cases hm : matchLitCI "docsend.com/view/".toList cs with
    | none => rw [hm] at h; simp at h
    | some r =>
      rw [hm] at h
      obtain ⟨p, rfl, hp⟩ := (matchLitCI_eq_some _ _ _).mp hm
      cases r with
      | nil => simp at h
      | cons c rest => exact ⟨p, c, rest, rfl, hp, h⟩
  · rintro ⟨host, c, rest, rfl, hhost, hc⟩
    have hm : matchLitCI "docsend.com/view/".toList (host ++ c :: rest) =
        some (c :: rest) := matchLitCI_of_matches _ hhost
    unfold viewTailMatch
    rw [hm]
    exact hc

/-- `hostTailMatch` accepts exactly the inputs that start with an optional
`www.` and then a `viewTailMatch`-accepted tail. -/
theorem hostTailMatch_iff (cs : List Char) :
    hostTailMatch cs = true ↔
      ∃ www host c rest, cs = www ++ host ++ c :: rest ∧
        (www = [] ∨ MatchesLit www "www.") ∧
        MatchesLit host "docsend.com/view/" ∧ tokenMatch c = true := by
  constructor
  · intro h
    unfold hostTailMatch at h
    cases hm : matchLitCI "www.".toList cs with
    | none =>
      rw [matchOptCI_of_none hm] at h
      obtain ⟨host, c, rest, rfl, hhost, hc⟩ := (viewTailMatch_iff cs).mp h
      exact ⟨[], host, c, rest, rfl, Or.inl rfl, hhost, hc⟩
    | some r =>
      rw [matchOptCI_of_some hm] at h
      obtain ⟨p, rfl, hp⟩ := (matchLitCI_eq_some _ _ _).mp hm
      obtain ⟨host, c, rest, rfl, hhost, hc⟩ := (viewTailMatch_iff r).mp h
      exact ⟨p, host, c, rest, by simp, Or.inr hp, hhost, hc⟩
  · rintro ⟨www, host, c, rest, rfl, hwww, hhost, hc⟩
    unfold hostTailMatch
    rcases hwww with rfl | hwww
    · -- no `www.` present: its `w` cannot match the host's first
      -- character, which matches `d`
      obtain ⟨b, host', rfl, hb⟩ := matchesLit_head hhost rfl
      have hm : matchLitCI "www.".toList
          (([] : List Char) ++ (b :: host') ++ c :: rest) = none := by
        apply matchLitCI_head_ne
        simp [not_w_of_d hb]
      simp only [List.nil_append] at hm ⊢
      rw [matchOptCI_of_none hm]
      exact (viewTailMatch_iff _).mpr ⟨b :: host', c, rest, rfl, hhost, hc⟩
    · have hm : matchLitCI "www.".toList (www ++ (host ++ c :: rest)) =
          some (host ++ c :: rest) := matchLitCI_of_matches _ hwww
      simp only [List.append_assoc]
      rw [matchOptCI_of_some hm]
      exact (viewTailMatch_iff _).mpr ⟨host, c, rest, rfl, hhost, hc⟩

/-- `afterSchemeMatch` accepts exactly `://` then an optional `www.` then
the host tail. -/
theorem afterSchemeMatch_iff (cs : List Char) :
    afterSchemeMatch cs = true ↔
      ∃ sep www host c rest, cs = sep ++ www ++ host ++ c :: rest ∧
        MatchesLit sep "://" ∧
        (www = [] ∨ MatchesLit www "www.") ∧
        MatchesLit host "docsend.com/view/" ∧ tokenMatch c = true := by
  constructor
  · intro h
    unfold afterSchemeMatch at h
    cases hm : matchLitCI "://".toList cs with
    | none => rw [hm] at h; simp at h
    | some r =>
      rw [hm] at h
      obtain ⟨p, rfl, hp⟩ := (matchLitCI_eq_some _ _ _).mp hm
      obtain ⟨www, host, c, rest, rfl, hwww, hhost, hc⟩ :=
        (hostTailMatch_iff r).mp h
      exact ⟨p, www, host, c, rest, by simp, hp, hwww, hhost, hc⟩
  · rintro ⟨sep, www, host, c, rest, rfl, hsep, hwww, hhost, hc⟩
    unfold afterSchemeMatch
    have hm : matchLitCI "://".toList (sep ++ (www ++ host ++ c :: rest)) =
        some (www ++ host ++ c :: rest) := matchLitCI_of_matches _ hsep
    simp only [List.append_assoc] at hm ⊢
    rw [hm]
    exact (hostTailMatch_iff _).mpr
      ⟨www, host, c, rest, by simp, hwww, hhost, hc⟩

/-- The top-level matcher accepts exactly the prefix shape. -/
theorem docsendUrlMatch_iff (cs : List Char) :
    docsendUrlMatch cs = true ↔ DocsendPrefixShape cs := by
  constructor
  · intro h
    unfold docsendUrlMatch at h
    cases hm : matchLitCI "http".toList cs with
    | none => rw [hm] at h; simp at h
    | some r1 =>
      rw [hm] at h
      obtain ⟨p1, rfl, hp1⟩ := (matchLitCI_eq_some _ _ _).mp hm
      replace h : afterSchemeMatch (matchOptCI "s".toList r1) = true := h
      cases hs : matchLitCI "s".toList r1 with
      | none =>
        rw [matchOptCI_of_none hs] at h
        obtain ⟨sep, www, host, c, rest, rfl, hsep, hwww, hhost, hc⟩ :=
          (afterSchemeMatch_iff r1).mp h
        exact ⟨p1, sep, www, host, c, rest, by simp, Or.inl hp1, hsep, hwww,
          hhost, hc⟩
      | some rs =>
        rw [matchOptCI_of_some hs] at h
        obtain ⟨ps, rfl, hps⟩ := (matchLitCI_eq_some _ _ _).mp hs
        obtain ⟨sep, www, host, c, rest, rfl, hsep, hwww, hhost, hc⟩ :=
          (afterSchemeMatch_iff rs).mp h
        refine ⟨p1 ++ ps, sep, www, host, c, rest, by simp, Or.inr ?_, hsep,
          hwww, hhost, hc⟩
        rw [MatchesLit, show "https".toList = "http".toList ++ "s".toList
          from rfl]
        exact List.rel_append hp1 hps
  · rintro ⟨sch, sep, www, host, c, rest, rfl, hsch, hsep, hwww, hhost, hc⟩
    unfold docsendUrlMatch
    rcases hsch with hsch | hsch
    · -- scheme `http`: the optional `s` cannot consume the separator,
      -- whose first character matches `:`
      have hm : matchLitCI "http".toList
          (sch ++ (sep ++ www ++ host ++ c :: rest)) =
          some (sep ++ www ++ host ++ c :: rest) :=
        matchLitCI_of_matches _ hsch
      simp only [List.append_assoc] at hm ⊢
      rw [hm]
      obtain ⟨b, sep', rfl, hb⟩ := matchesLit_head hsep rfl
      have hs : matchLitCI "s".toList
          ((b :: sep') ++ www ++ host ++ c :: rest) = none := by
        apply matchLitCI_head_ne
        simp [not_s_of_colon hb]
      simp only [List.cons_append, List.append_assoc] at hs ⊢
      rw [matchOptCI_of_none hs]
      exact (afterSchemeMatch_iff _).mpr
        ⟨b :: sep', www, host, c, rest, by simp, hsep, hwww, hhost, hc⟩
    · -- scheme `https`: split the match into `http` and `s`
      replace hsch : List.Forall₂ (fun l c => reLitMatch l c = true)
          ['h', 't', 't', 'p', 's'] sch := hsch
      rcases List.forall₂_cons_left_iff.mp hsch with ⟨b1, t1, hb1, h1, rfl⟩
      rcases List.forall₂_cons_left_iff.mp h1 with ⟨b2, t2, hb2, h2, rfl⟩
      rcases List.forall₂_cons_left_iff.mp h2 with ⟨b3, t3, hb3, h3, rfl⟩
      rcases List.forall₂_cons_left_iff.mp h3 with ⟨b4, t4, hb4, h4, rfl⟩
      rcases List.forall₂_cons_left_iff.mp h4 with ⟨b5, t5, hb5, h5, rfl⟩
      obtain rfl : t5 = [] := List.forall₂_nil_left_iff.mp h5
      have hp1 : List.Forall₂ (fun l c => reLitMatch l c = true)
          "http".toList [b1, b2, b3, b4] :=
        List.Forall₂.cons hb1 (List.Forall₂.cons hb2
          (List.Forall₂.cons hb3 (List.Forall₂.cons hb4 List.Forall₂.nil)))
      have hps : List.Forall₂ (fun l c => reLitMatch l c = true)
          "s".toList [b5] :=
        List.Forall₂.cons hb5 List.Forall₂.nil
      have hm : matchLitCI "http".toList
          (b1 :: b2 :: b3 :: b4 ::
            (b5 :: (sep ++ (www ++ (host ++ c :: rest))))) =
          some (b5 :: (sep ++ (www ++ (host ++ c :: rest)))) :=
        matchLitCI_of_matches _ hp1
      have hs : matchLitCI "s".toList
          (b5 :: (sep ++ (www ++ (host ++ c :: rest)))) =
          some (sep ++ (www ++ (host ++ c :: rest))) :=
        matchLitCI_of_matches _ hps
      simp only [List.cons_append, List.nil_append, List.append_assoc] at hm ⊢
      rw [hm]
      show afterSchemeMatch (matchOptCI "s".toList
        (b5 :: (sep ++ (www ++ (host ++ c :: rest))))) = true
      rw [matchOptCI_of_some hs]
      exact (afterSchemeMatch_iff _).mpr
        ⟨sep, www, host, c, rest, by simp, hsep, hwww, hhost, hc⟩

/-- C1 counterexample.  `is_valid_docsend_url` accepts
`"https://docsend.com/view/abc def"` although that string does not match the
document-link pattern (its token part contains a space): `re.match` only
requires a matching prefix, so acceptance is not "if and only if the string
matches the pattern". -/
theorem is_valid_docsend_url_accepts_nonmatching :
    is_valid_docsend_url "https://docsend.com/view/abc def" = true ∧
    docsendFullMatch "https://docsend.com/view/abc def".toList = false := by
  constructor <;> decide

/-- The model agrees with the program on a no-break-space prefix, which
Python's `str.strip()` removes. -/
theorem is_valid_docsend_url_nbsp :
    is_valid_docsend_url "\u00a0https://docsend.com/view/abc123" = true := by
  decide

/-- The model agrees with the program on the long-s equivalence of
`re.IGNORECASE` in the scheme. -/
theorem is_valid_docsend_url_long_s :
    is_valid_docsend_url "http\u017f://docsend.com/view/abc" = true := by
  decide

/-- The model agrees with the program on the dotless-i equivalence of
`re.IGNORECASE` in the host. -/
theorem is_valid_docsend_url_dotless_i :
    is_valid_docsend_url "https://docsend.com/v\u0131ew/abc" = true := by
  decide

/-- The model agrees with the program on the Kelvin-sign membership of the
token class under `re.IGNORECASE`. -/
theorem is_valid_docsend_url_kelvin :
    is_valid_docsend_url "https://docsend.com/view/\u212a" = true := by
  decide

/-- C1 amended.  `is_valid_docsend_url url` accepts exactly when, after
stripping surrounding whitespace (Python's `str.strip()` set), the string
*begins with* a prefix of the form `scheme://[www.]docsend.com/view/`
(scheme `http` or `https`) followed by at least one character of the
`[a-zA-Z0-9]` class — every pattern character matched by its
`re.IGNORECASE` match set (upper/lower pair, plus `ı`/`İ` for `i`, `ſ` for
`s`, and `ı`, `İ`, `ſ`, Kelvin `K` in the token class) — while trailing
characters are not examined.  The check itself performs no network access
(it is a pure function of the string). -/
theorem is_valid_docsend_url_iff (url : String) :
    is_valid_docsend_url url = true ↔
      DocsendPrefixShape (stripChars url.toList) := by
  unfold is_valid_docsend_url
  exact docsendUrlMatch_iff _


/-! ## Worker-trace helper lemmas -/

theorem percents_nil : percents [] = [] := rfl

theorem percents_cons_progress (p : Nat) (m : String) (l : List Event) :
    percents (.progress p m :: l) = p :: percents l := by
  simp [percents]

theorem percents_cons_auth (k : String) (l : List Event) :
    percents (.auth_required k :: l) = percents l := by
  simp [percents]

theorem percents_cons_complete (a : String) (b : Nat) (c : String)
    (l : List Event) : percents (.complete a b c :: l) = percents l := by
  simp [percents]

theorem percents_cons_error (m : String) (l : List Event) :
    percents (.error m :: l) = percents l := by
  simp [percents]

theorem percents_append (a b : List Event) :
    percents (a ++ b) = percents a ++ percents b := by
  simp [percents]

theorem terminalLast_cons {e : Event} {rest : List Event}
    (he : e.isTerminal = false) (hr : terminalLast rest = true) :
    terminalLast (e :: rest) = true := by
  cases rest with
  | nil => rfl
  | cons f fs => simp [terminalLast, he, hr]

theorem terminalLast_append {a b : List Event}
    (ha : ∀ e ∈ a, e.isTerminal = false) (hb : terminalLast b = true) :
    terminalLast (a ++ b) = true := by
  induction a with
  | nil => simpa using hb
  | cons e a ih =>
    rw [List.cons_append]
    exact terminalLast_cons (ha e (by simp))
      (ih fun f hf => ha f (by simp [hf]))

theorem captureEvents_nonterminal (c : Nat → Bool) (k n : Nat) :
    ∀ e ∈ captureEvents c k n, e.isTerminal = false := by
  intro e he
  unfold captureEvents at he
  rcases List.mem_filterMap.mp he with ⟨i, -, hi⟩
  by_cases hc : c (k + i) = true
  · simp [hc] at hi
  · rw [Bool.not_eq_true] at hc
    simp only [hc] at hi
    obtain rfl : Event.progress ((i + 1) * 60 / n)
        ("Capturing page " ++ toString (i + 1) ++ " of " ++ toString n) = e := by
      simpa using hi
    rfl

theorem terminalLast_handlerEvents (env : RunEnv) (k : Nat) (e : Exc) :
    terminalLast (handlerEvents env k e) = true := by
  unfold handlerEvents
  split <;> rfl

theorem terminalLast_finishEvents (env : RunEnv) (k n : Nat) :
    terminalLast (finishEvents env k n) = true := by
  unfold finishEvents
  split
  · rfl
  · refine terminalLast_cons rfl ?_
    split
    · rfl
    · refine terminalLast_cons rfl ?_
      cases env.buildErr with
      | some e => exact terminalLast_handlerEvents env _ e
      | none =>
        simp only
        split
        · rfl
        · refine terminalLast_cons rfl ?_
          cases env.saveErr with
          | some e => exact terminalLast_handlerEvents env _ e
          | none => rfl

theorem terminalLast_gateEvents (env : RunEnv) (kind : String) :
    terminalLast (gateEvents env kind) = true := by
  unfold gateEvents
  split
  · rfl
  · refine terminalLast_cons rfl ?_
    refine terminalLast_cons rfl ?_
    split
    · rfl
    · refine terminalLast_cons rfl ?_
      cases env.retry with
      | ok n =>
        simp only
        exact terminalLast_append (captureEvents_nonterminal _ _ _)
          (terminalLast_finishEvents env _ _)
      | raise e => exact terminalLast_handlerEvents env _ e

/-- Any terminal event of a worker run is the last event of the run. -/
theorem terminalLast_runEvents (env : RunEnv) :
    terminalLast (runEvents env) = true := by
  unfold runEvents
  refine terminalLast_cons rfl ?_
  refine terminalLast_cons rfl ?_
  cases hf : env.first with
  | ok n =>
    exact terminalLast_append (captureEvents_nonterminal _ _ _)
      (terminalLast_finishEvents env _ _)
  | raise e =>
    cases e with
    | emailRequired => exact terminalLast_gateEvents env "email"
    | passcodeRequired => exact terminalLast_gateEvents env "passcode"
    | invalidCredentials => exact terminalLast_handlerEvents env 0 _
    | other msg => exact terminalLast_handlerEvents env 0 _

theorem terminalCount_cons_nonterminal {e : Event} (l : List Event)
    (he : e.isTerminal = false) : terminalCount (e :: l) = terminalCount l := by
  simp [terminalCount, he]

/-- A trace whose terminal events can only sit at the end has at most one
terminal event. -/
theorem terminalCount_le_one {l : List Event}
    (h : terminalLast l = true) : terminalCount l ≤ 1 := by
  induction l with
  | nil => simp [terminalCount]
  | cons e rest ih =>
    cases rest with
    | nil =>
      simp only [terminalCount, List.filter]
      cases e.isTerminal <;> simp
    | cons f fs =>
      have h' : (!e.isTerminal && terminalLast (f :: fs)) = true := h
      rcases (Bool.and_eq_true _ _).mp h' with ⟨he, hr⟩
      rw [terminalCount_cons_nonterminal _ (by simpa using he)]
      exact ih hr


theorem percents_captureEvents (c : Nat → Bool) (k n : Nat) :
    percents (captureEvents c k n) =
      (List.range n).filterMap
        (fun i => if c (k + i) then none else some ((i + 1) * 60 / n)) := by
  unfold captureEvents percents
  rw [List.filterMap_filterMap]
  congr 1
  funext i
  by_cases hc : c (k + i) = true
  · simp [hc]
  · simp [hc]

theorem filterMap_if_sublist_map {α β : Type} (p : α → Bool) (f : α → β)
    (l : List α) :
    List.Sublist (l.filterMap fun x => if p x then none else some (f x))
      (l.map f) := by
  induction l with
  | nil => simp
  | cons x l ih =>
    rw [List.filterMap_cons, List.map_cons]
    by_cases hp : p x = true
    · rw [if_pos hp]
      exact ih.trans (List.sublist_cons_self _ _)
    · rw [if_neg hp]
      exact ih.cons₂ _

theorem percents_capture_sublist (c : Nat → Bool) (k n : Nat) :
    List.Sublist (percents (captureEvents c k n))
      ((List.range n).map (fun i => (i + 1) * 60 / n)) := by
  rw [percents_captureEvents]
  exact filterMap_if_sublist_map _ _ _

/-- The capture-phase percentages are non-decreasing. -/
theorem chain_le_percents_capture (c : Nat → Bool) (k n : Nat) :
    List.Chain' (· ≤ ·) (percents (captureEvents c k n)) := by
  refine List.Pairwise.chain'
    (List.Pairwise.sublist (percents_capture_sublist c k n) ?_)
  refine List.Pairwise.map _ ?_ (List.pairwise_lt_range n)
  intro a b hab
  exact Nat.div_le_div_right (Nat.mul_le_mul_right 60 (by omega))

/-- The capture-phase percentages never exceed 60. -/
theorem percents_capture_le_60 (c : Nat → Bool) (k n : Nat) :
    ∀ p ∈ percents (captureEvents c k n), p ≤ 60 := by
  intro p hp
  have hmem := (percents_capture_sublist c k n).subset hp
  rcases List.mem_map.mp hmem with ⟨i, hi, rfl⟩
  have hin : i < n := List.mem_range.mp hi
  calc (i + 1) * 60 / n ≤ n * 60 / n :=
        Nat.div_le_div_right (Nat.mul_le_mul_right 60 (by omega))
    _ = 60 := Nat.mul_div_cancel_left 60 (by omega)

theorem percents_handlerEvents (env : RunEnv) (k : Nat) (e : Exc) :
    percents (handlerEvents env k e) = [] := by
  unfold handlerEvents
  split <;> rfl

theorem percents_finishEvents (env : RunEnv) (k n : Nat) :
    percents (finishEvents env k n) = [] ∨
    percents (finishEvents env k n) = [62] ∨
    percents (finishEvents env k n) = [62, 70] ∨
    percents (finishEvents env k n) = [62, 70, 90] ∨
    percents (finishEvents env k n) = [62, 70, 90, 100] := by
  unfold finishEvents
  split
  · exact Or.inl rfl
  · split
    · exact Or.inr (Or.inl rfl)
    · cases env.buildErr with
      | some e =>
        refine Or.inr (Or.inr (Or.inl ?_))
        simp [percents_cons_progress, percents_handlerEvents]
      | none =>
        simp only
        split
        · exact Or.inr (Or.inr (Or.inl rfl))
        · cases env.saveErr with
          | some e =>
            refine Or.inr (Or.inr (Or.inr (Or.inl ?_)))
            simp [percents_cons_progress, percents_handlerEvents]
          | none =>
            exact Or.inr (Or.inr (Or.inr (Or.inr rfl)))

theorem chainR_percents_finish (env : RunEnv) (k n : Nat) :
    List.Chain' (fun p q => p ≤ q ∨ p = 5 ∨ p = 15)
      (percents (finishEvents env k n)) := by
  rcases percents_finishEvents env k n with h | h | h | h | h <;> rw [h] <;>
    simp only [List.chain'_cons, List.chain'_singleton, List.chain'_nil,
      and_true] <;> omega

theorem head_percents_finish (env : RunEnv) (k n : Nat) :
    ∀ y ∈ (percents (finishEvents env k n)).head?, y = 62 := by
  rcases percents_finishEvents env k n with h | h | h | h | h <;> rw [h] <;> simp

/-- The percentages of a capture phase followed by the finishing phase are
chained: the only possible decreases in a run come before the capture
phase. -/
theorem chainR_capture_finish (env : RunEnv) (k k' n : Nat) :
    List.Chain' (fun p q => p ≤ q ∨ p = 5 ∨ p = 15)
      (percents (captureEvents env.cancelAt k n) ++
        percents (finishEvents env k' n)) := by
  refine List.chain'_append.mpr ⟨?_, chainR_percents_finish env k' n, ?_⟩
  · exact List.Chain'.imp (fun a b h => Or.inl h)
      (chain_le_percents_capture env.cancelAt k n)
  · intro x hx y hy
    have hx60 : x ≤ 60 :=
      percents_capture_le_60 env.cancelAt k n x (List.mem_of_getLast?_eq_some hx)
    have hy62 : y = 62 := head_percents_finish env k' n y hy
    exact Or.inl (by omega)

theorem chainR_percents_gate (env : RunEnv) (kind : String) :
    List.Chain' (fun p q => p ≤ q ∨ p = 5 ∨ p = 15)
      (percents (gateEvents env kind)) := by
  unfold gateEvents
  split
  · rw [percents_nil]
    exact List.chain'_nil
  · rw [percents_cons_progress, percents_cons_auth]
    split
    · rw [percents_nil]
      exact List.chain'_singleton _
  
    · rw [percents_cons_progress]
      refine List.chain'_cons.mpr ⟨Or.inl (by omega), ?_⟩
      refine List.chain'_cons'.mpr ⟨fun y _ => Or.inr (Or.inr rfl), ?_⟩
      cases hr : env.retry with
      | ok n =>
        rw [percents_append]
        exact chainR_capture_finish env 2 (2 + n) n
      | raise e =>
        rw [percents_handlerEvents]
        exact List.chain'_nil

/-- Chained percentages for the whole run. -/
theorem chainR_percents_run (env : RunEnv) :
    List.Chain' (fun p q => p ≤ q ∨ p = 5 ∨ p = 15)
      (percents (runEvents env)) := by
  rcases hfe : env.first with n | e
  · simp only [runEvents, hfe]
    rw [percents_cons_progress, percents_cons_progress, percents_append]
    refine List.chain'_cons.mpr ⟨Or.inl (by omega), ?_⟩
    refine List.chain'_cons'.mpr ⟨fun y _ => Or.inr (Or.inl rfl), ?_⟩
    exact chainR_capture_finish env 0 n n
  · cases e with
    | emailRequired =>
      simp only [runEvents, hfe]
      rw [percents_cons_progress, percents_cons_progress]
      refine List.chain'_cons.mpr ⟨Or.inl (by omega), ?_⟩
      refine List.chain'_cons'.mpr ⟨fun y _ => Or.inr (Or.inl rfl), ?_⟩
      exact chainR_percents_gate env "email"
    | passcodeRequired =>
      simp only [runEvents, hfe]
      rw [percents_cons_progress, percents_cons_progress]
      refine List.chain'_cons.mpr ⟨Or.inl (by omega), ?_⟩
      refine List.chain'_cons'.mpr ⟨fun y _ => Or.inr (Or.inl rfl), ?_⟩
      exact chainR_percents_gate env "passcode"
    | invalidCredentials =>
      simp only [runEvents, hfe]
      rw [percents_cons_progress, percents_cons_progress, percents_handlerEvents]
      simp only [List.chain'_cons, List.chain'_singleton, and_true]
      omega
    | other msg =>
      simp only [runEvents, hfe]
      rw [percents_cons_progress, percents_cons_progress, percents_handlerEvents]
      simp only [List.chain'_cons, List.chain'_singleton, and_true]
      omega


theorem terminalCount_nil : terminalCount [] = 0 := rfl

theorem terminalCount_append (a b : List Event) :
    terminalCount (a ++ b) = terminalCount a + terminalCount b := by
  simp [terminalCount, List.filter_append]

theorem terminalCount_cons_progress (p : Nat) (m : String) (l : List Event) :
    terminalCount (.progress p m :: l) = terminalCount l :=
  terminalCount_cons_nonterminal l rfl

theorem terminalCount_cons_auth (k : String) (l : List Event) :
    terminalCount (.auth_required k :: l) = terminalCount l :=
  terminalCount_cons_nonterminal l rfl

theorem terminalCount_captureEvents (c : Nat → Bool) (k n : Nat) :
    terminalCount (captureEvents c k n) = 0 := by
  unfold terminalCount
  rw [List.length_eq_zero, List.filter_eq_nil_iff]
  intro e he
  simp [captureEvents_nonterminal c k n e he]

theorem terminalCount_handlerEvents_one (env : RunEnv) (k : Nat) (e : Exc)
    (hc : env.cancelAt k = false) :
    terminalCount (handlerEvents env k e) = 1 := by
  simp [handlerEvents, hc, terminalCount, Event.isTerminal]

theorem terminalCount_finishEvents_one (env : RunEnv) (k n : Nat)
    (hc : ∀ j, env.cancelAt j = false) :
    terminalCount (finishEvents env k n) = 1 := by
  cases hb : env.buildErr with
  | some e =>
    simp [finishEvents, hc, hb, handlerEvents, terminalCount, Event.isTerminal]
  | none =>
    cases hs : env.saveErr with
    | some e =>
      simp [finishEvents, hc, hb, hs, handlerEvents, terminalCount,
        Event.isTerminal]
    | none =>
      simp [finishEvents, hc, hb, hs, terminalCount, Event.isTerminal]

theorem terminalCount_gateEvents_one (env : RunEnv) (kind : String)
    (hc : ∀ j, env.cancelAt j = false) (hap : env.authProvided = true) :
    terminalCount (gateEvents env kind) = 1 := by
  rcases hr : env.retry with n | e
  · have hg : gateEvents env kind =
        .progress 10 "Authentication required..." ::
        .auth_required kind ::
        .progress 15 "Authenticating..." ::
        (captureEvents env.cancelAt 2 n ++ finishEvents env (2 + n) n) := by
      simp [gateEvents, hc, hap, hr]
    rw [hg, terminalCount_cons_progress, terminalCount_cons_auth,
      terminalCount_cons_progress, terminalCount_append,
      terminalCount_captureEvents, terminalCount_finishEvents_one env _ _ hc]
  · have hg : gateEvents env kind =
        .progress 10 "Authentication required..." ::
        .auth_required kind ::
        .progress 15 "Authenticating..." :: handlerEvents env 2 e := by
      simp [gateEvents, hc, hap, hr]
    rw [hg, terminalCount_cons_progress, terminalCount_cons_auth,
      terminalCount_cons_progress, terminalCount_handlerEvents_one env 2 e (hc 2)]

/-- A run that is never cancelled produces at least one terminal event. -/
theorem one_le_terminalCount_run (env : RunEnv)
    (hc : ∀ j, env.cancelAt j = false)
    (hwf2 : env.authProvided = false → env.cancelAt 1 = true) :
    1 ≤ terminalCount (runEvents env) := by
  have hap : env.authProvided = true := by
    cases h : env.authProvided
    · have h2 := hwf2 h
      rw [hc 1] at h2
      cases h2
    · rfl
  rcases hfe : env.first with n | e
  · have hr : runEvents env =
        .progress 0 "Initializing..." :: .progress 5 "Loading document..." ::
        (captureEvents env.cancelAt 0 n ++ finishEvents env n n) := by
      simp [runEvents, hfe]
    rw [hr, terminalCount_cons_progress, terminalCount_cons_progress,
      terminalCount_append, terminalCount_captureEvents,
      terminalCount_finishEvents_one env n n hc]
  · cases e with
    | emailRequired =>
      have hr : runEvents env =
          .progress 0 "Initializing..." ::
          .progress 5 "Loading document..." :: gateEvents env "email" := by
        simp [runEvents, hfe]
      rw [hr, terminalCount_cons_progress, terminalCount_cons_progress,
        terminalCount_gateEvents_one env "email" hc hap]
    | passcodeRequired =>
      have hr : runEvents env =
          .progress 0 "Initializing..." ::
          .progress 5 "Loading document..." :: gateEvents env "passcode" := by
        simp [runEvents, hfe]
      rw [hr, terminalCount_cons_progress, terminalCount_cons_progress,
        terminalCount_gateEvents_one env "passcode" hc hap]
    | invalidCredentials =>
      have hr : runEvents env =
          .progress 0 "Initializing..." ::
          .progress 5 "Loading document..." ::
          handlerEvents env 0 .invalidCredentials := by
        simp [runEvents, hfe]
      rw [hr, terminalCount_cons_progress, terminalCount_cons_progress,
        terminalCount_handlerEvents_one env 0 _ (hc 0)]
    | other msg =>
      have hr : runEvents env =
          .progress 0 "Initializing..." ::
          .progress 5 "Loading document..." ::
          handlerEvents env 0 (.other msg) := by
        simp [runEvents, hfe]
      rw [hr, terminalCount_cons_progress, terminalCount_cons_progress,
        terminalCount_handlerEvents_one env 0 _ (hc 0)]

/-! ## C5 — exactly one terminal outcome per run -/

/-- C5.  Every run emits at most one terminal (`complete` or `error`) event —
no terminal event is ever emitted twice — and (for a well-formed
environment) a run that emits none was cancelled: the `_cancelled` flag was
seen set at some checkpoint.  So each run produces exactly one `complete`,
or exactly one `error`, or terminates silently on cancellation. -/
theorem exactly_one_terminal_outcome (env : RunEnv) :
    terminalCount (runEvents env) ≤ 1 ∧
    (EnvWellFormed env → terminalCount (runEvents env) = 0 →
      ∃ k, env.cancelAt k = true) := by
  refine ⟨terminalCount_le_one (terminalLast_runEvents env), ?_⟩
  intro hwf h0
  by_contra hno
  push_neg at hno
  have hc : ∀ j, env.cancelAt j = false := by
    intro j
    cases h : env.cancelAt j
    · rfl
    · exact absurd h (hno j)
  have h1 := one_le_terminalCount_run env hc hwf.2
  omega

/-- C5 witness.  A run cancelled from the start is well-formed, emits no
terminal event, and indeed has a set cancel flag. -/
theorem exactly_one_terminal_outcome_witness :
    EnvWellFormed (mkEnv (fun _ => true) (.ok 1) (.ok 1) true) ∧
    terminalCount (runEvents (mkEnv (fun _ => true) (.ok 1) (.ok 1) true)) = 0 ∧
    (∃ k, (mkEnv (fun _ => true) (.ok 1) (.ok 1) true).cancelAt k = true) :=
  have hwf : EnvWellFormed (mkEnv (fun _ => true) (.ok 1) (.ok 1) true) :=
    ⟨fun _ _ _ _ => rfl, fun _ => rfl⟩
  have h0 : terminalCount
      (runEvents (mkEnv (fun _ => true) (.ok 1) (.ok 1) true)) = 0 := by decide
  ⟨hwf, h0, (exactly_one_terminal_outcome _).2 hwf h0⟩

/-! ## C2 — cancelling during the credential wait -/

/-- C2.  `cancel` and `cancel_auth` both set the auth event, so a worker
blocked in `_auth_event.wait()` is released at once; and a run whose first
scrape hit a gate and whose post-wait `_cancelled` read is true (the flag
was set during the wait) emits no `complete` and no `error` event — the
cancellation is not reported as a failure, the run just ends. -/
theorem cancel_during_wait_silent (env : RunEnv)
    (hfirst : env.first = .raise .emailRequired ∨
      env.first = .raise .passcodeRequired)
    (hc1 : env.cancelAt 1 = true) :
    (∀ st : WorkerCtl,
      (cancel st).auth_event = true ∧ (cancel_auth st).auth_event = true) ∧
    terminalCount (runEvents env) = 0 := by
  refine ⟨fun st => ⟨rfl, rfl⟩, ?_⟩
  have hgate : ∀ kind, terminalCount (gateEvents env kind) = 0 := by
    intro kind
    unfold gateEvents
    split
    · rfl
    · rw [terminalCount_cons_progress, terminalCount_cons_auth]
      split
      · rfl
      · rename_i hcond
        rw [hc1] at hcond
        simp at hcond
  rcases hfirst with h | h
  · have hr : runEvents env =
        .progress 0 "Initializing..." ::
        .progress 5 "Loading document..." :: gateEvents env "email" := by
      simp [runEvents, h]
    rw [hr, terminalCount_cons_progress, terminalCount_cons_progress, hgate]
  · have hr : runEvents env =
        .progress 0 "Initializing..." ::
        .progress 5 "Loading document..." :: gateEvents env "passcode" := by
      simp [runEvents, h]
    rw [hr, terminalCount_cons_progress, terminalCount_cons_progress, hgate]

/-- C2 witness.  The flag stream that turns true from read 1 on corresponds
to a cancel arriving during the wait; the run emits no terminal event. -/
theorem cancel_during_wait_silent_witness :
    ((mkEnv (fun k => decide (1 ≤ k)) (.raise .emailRequired) (.ok 1)
        false).first = .raise .emailRequired ∨
      (mkEnv (fun k => decide (1 ≤ k)) (.raise .emailRequired) (.ok 1)
        false).first = .raise .passcodeRequired) ∧
    (mkEnv (fun k => decide (1 ≤ k)) (.raise .emailRequired) (.ok 1)
        false).cancelAt 1 = true ∧
    ((∀ st : WorkerCtl,
        (cancel st).auth_event = true ∧ (cancel_auth st).auth_event = true) ∧
      terminalCount (runEvents (mkEnv (fun k => decide (1 ≤ k))
        (.raise .emailRequired) (.ok 1) false)) = 0) :=
  ⟨Or.inl rfl, by decide,
   cancel_during_wait_silent _ (Or.inl rfl) (by decide)⟩

/-! ## C3 — passcode gate discovered on the post-email retry -/

/-- C3 counterexample.  With an email gate on the first attempt, an email
supplied, and a passcode gate still present on the retry, the worker never
emits `auth_required("passcode")` — the retry's `PasscodeRequiredError`
escapes to the generic handler and is reported through the `error` event. -/
theorem passcode_gate_on_retry_counterexample :
    Event.auth_required "passcode" ∉
      runEvents (mkEnv (fun _ => false) (.raise .emailRequired)
        (.raise .passcodeRequired) true) ∧
    Event.error (format_error .passcodeRequired) ∈
      runEvents (mkEnv (fun _ => false) (.raise .emailRequired)
        (.raise .passcodeRequired) true) := by
  decide

/-- C3 amended.  The `except PasscodeRequiredError` clause guards only the
*first* scrape call; when the post-email retry raises the passcode gate, the
exception reaches the generic handler: the run's trace ends with an `error`
event and contains no `auth_required("passcode")` and no second pause. -/
theorem retry_passcode_gate_errors (env : RunEnv)
    (hfirst : env.first = .raise .emailRequired)
    (hauth : env.authProvided = true)
    (hretry : env.retry = .raise .passcodeRequired)
    (hc : ∀ j, env.cancelAt j = false) :
    runEvents env =
      [.progress 0 "Initializing...", .progress 5 "Loading document...",
       .progress 10 "Authentication required...", .auth_required "email",
       .progress 15 "Authenticating...",
       .error (format_error .passcodeRequired)] ∧
    Event.auth_required "passcode" ∉ runEvents env := by
  have htr : runEvents env =
      [.progress 0 "Initializing...", .progress 5 "Loading document...",
       .progress 10 "Authentication required...", .auth_required "email",
       .progress 15 "Authenticating...",
       .error (format_error .passcodeRequired)] := by
    simp [runEvents, hfirst, gateEvents, hc, hauth, hretry, handlerEvents]
  refine ⟨htr, ?_⟩
  rw [htr]
  decide

/-- C3 witness.  The theorem instantiated at the concrete environment of the
counterexample. -/
theorem retry_passcode_gate_errors_witness :
    ((mkEnv (fun _ => false) (.raise .emailRequired) (.raise .passcodeRequired)
        true).first = .raise .emailRequired) ∧
    ((mkEnv (fun _ => false) (.raise .emailRequired) (.raise .passcodeRequired)
        true).authProvided = true) ∧
    ((mkEnv (fun _ => false) (.raise .emailRequired) (.raise .passcodeRequired)
        true).retry = .raise .passcodeRequired) ∧
    (∀ j, (mkEnv (fun _ => false) (.raise .emailRequired)
        (.raise .passcodeRequired) true).cancelAt j = false) ∧
    (runEvents (mkEnv (fun _ => false) (.raise .emailRequired)
        (.raise .passcodeRequired) true) =
      [.progress 0 "Initializing...", .progress 5 "Loading document...",
       .progress 10 "Authentication required...", .auth_required "email",
       .progress 15 "Authenticating...",
       .error (format_error .passcodeRequired)] ∧
      Event.auth_required "passcode" ∉
        runEvents (mkEnv (fun _ => false) (.raise .emailRequired)
          (.raise .passcodeRequired) true)) :=
  ⟨rfl, rfl, rfl, fun _ => rfl,
   retry_passcode_gate_errors _ rfl rfl rfl (fun _ => rfl)⟩

/-! ## C4 — progress ordering -/

/-- C4 counterexample.  An ungated 13-page document, never cancelled: the
fixed 5% "Loading document..." emission is followed by the first capture
callback `int(1·60/13) = 4` — the progress percentages decrease. -/
theorem progress_percent_decreases :
    ¬ List.Chain' (· ≤ ·)
      (percents (runEvents (mkEnv (fun _ => false) (.ok 13) (.ok 13) true))) := by
  intro h
  have heq : percents (runEvents (mkEnv (fun _ => false) (.ok 13) (.ok 13)
      true)) =
      [0, 5, 4, 9, 13, 18, 23, 27, 32, 36, 41, 46, 50, 55, 60, 62, 70, 90,
       100] := by
    decide
  rw [heq] at h
  have h2 := (List.chain'_cons.mp h).2
  have h3 := (List.chain'_cons.mp h2).1
  omega

/-- C4 amended.  In every run the progress percentages are non-decreasing
except possibly immediately after the fixed 5% ("Loading document...") or
15% ("Authenticating...") emissions, where the first capture callback
`int(current·60/total)` may be smaller when the page count is large; and the
terminal event (`complete` or `error`) is always the last event emitted. -/
theorem progress_order (env : RunEnv) :
    List.Chain' (fun p q => p ≤ q ∨ p = 5 ∨ p = 15)
      (percents (runEvents env)) ∧
    terminalLast (runEvents env) = true :=
  ⟨chainR_percents_run env, terminalLast_runEvents env⟩

end DocsendApp
